import Mathlib

/-!
# Connection admission and credential throttling — verification

A shallow embedding of the admission / login / throttling core of the
`chatgpt-plus` server (`server/server.go`), with theorems checking the
natural-language specification against the code.

Go maps are embedded as functions into `Option`; Go `int64` millisecond
timestamps are embedded as `Int`.  The request-handling middleware
`AuthorizeMiddleware` becomes a pure decision function; the mutation of the
session registry performed by `LoginHandle` becomes explicit state passing.
-/

namespace ChatGPTPlus

/-- Response codes of the uniform envelope `types.BizVo`.  The `types` package
is not part of the extracted sources; the spec describes the envelope as
`{code: enum{SUCCESS, FAILED, NOT_AUTHORIZED}, message, data}`, and the server
code uses the three constants `types.Success`, `types.Failed`,
`types.NotAuthorized` as distinct codes. -/
inductive BizCode where
  | success
  | failed
  | notAuthorized
  deriving DecidableEq, Repr

/-- The uniform response envelope `types.BizVo` (code, message, data); `data`
carries the freshly issued session id on successful login. -/
structure BizVo where
  code : BizCode
  message : String := ""
  data : Option String := none
  deriving DecidableEq, Repr

/-- `types.ChatSession`: the value stored in `Server.ChatSession` at login,
recording the client IP, the user name (login token) and the session id. -/
structure ChatSession where
  clientIP : String
  username : String
  sessionId : String
  deriving DecidableEq, Repr

/-- The parts of `types.Config` the admission core reads: the global
`EnableAuth` switch and the administrative `AccessKey`. -/
structure Config where
  enableAuth : Bool
  accessKey : String
  deriving DecidableEq, Repr

/-- `Server.ChatSession`, the in-memory session registry: a Go
`map[string]types.ChatSession`, embedded as a partial function. -/
def Registry : Type := String → Option ChatSession

/-- The tamper-evident cookie session store consulted by
`sessions.Default(c).Get sessionId`: maps a session id to the stored user
info (the login token string put there by `LoginHandle`). -/
def CookieStore : Type := String → Option String

/-- The empty session registry (a fresh `make(map[string]types.ChatSession)`). -/
def Registry.empty : Registry := fun _ => none

/-- The empty cookie store. -/
def CookieStore.empty : CookieStore := fun _ => none

/-- Registry update `s.ChatSession[sessionId] = v`. -/
def Registry.insert (r : Registry) (k : String) (v : ChatSession) : Registry :=
  fun k' => if k' = k then some v else r k'

/-- Cookie store update `session.Set(sessionId, token); session.Save()`. -/
def CookieStore.insert (st : CookieStore) (k : String) (v : String) : CookieStore :=
  fun k' => if k' = k then some v else st k'

/-- The inputs of one inbound unit of work that `AuthorizeMiddleware` reads:
URL path, the `ACCESS_KEY` header, the session-id header (`types.TokenName`),
the `sessionId` query parameter, and the client network address.  A missing
header or query parameter is the empty string, as in the gin `GetHeader` /
`Query` helpers. -/
structure Request where
  path : String
  accessKeyHeader : String
  tokenHeader : String
  querySessionId : String
  clientIP : String
  deriving DecidableEq, Repr

/-- Outcome of the middleware for one request: `next u` means the request
proceeds down the handler chain (`c.Next()`), with `u` the user info attached
to the context via `c.Set(types.SessionKey, ·)` when any; `abortJson` means
`c.Abort()` together with a JSON body carrying a code and message (all further
processing of the request is short-circuited); `abortSilent` means `c.Abort()`
with no response body at all. -/
inductive Decision where
  | next (ctxUser : Option String)
  | abortJson (code : BizCode) (message : String)
  | abortSilent
  deriving DecidableEq, Repr

/-- `strings.HasPrefix pre s` of the Go standard library, on the underlying
character lists. -/
def goHasPre (s pre : String) : Bool :=
  pre.data.isPrefixOf s.data

/-- `AuthorizeMiddleware` (server.go, lines 184–230), as a pure decision
function of the configuration, the session registry, the cookie store and the
request.  The branches follow the source in order:

1. auth disabled, the `/api/login` or `/api/config/chat-roles/get` path, or a
   path outside `/api`: `c.Next()`;
2. a path under `/api/config`: exact `ACCESS_KEY` header match against
   `Config.AccessKey`, else abort with a `NotAuthorized` body;
3. the `/api/chat` path (WebSocket): the `sessionId` query parameter must be
   registered with a matching client IP, else a bodyless abort;
4. otherwise: the session id from the `types.TokenName` header must resolve in
   the cookie store; the resolved user info is attached to the context. -/
def authorizeMiddleware (cfg : Config) (reg : Registry) (store : CookieStore)
    (req : Request) : Decision :=
  if cfg.enableAuth = false ∨ req.path = "/api/login" ∨
      req.path = "/api/config/chat-roles/get" ∨
      goHasPre req.path "/api" = false then
    .next none
  else if goHasPre req.path "/api/config" = true then
    if req.accessKeyHeader ≠ cfg.accessKey then
      .abortJson .notAuthorized "No Permissions"
    else
      .next none
  else if req.path = "/api/chat" then
    match reg req.querySessionId with
    | some session =>
        if session.clientIP = req.clientIP then .next none else .abortSilent
    | none => .abortSilent
  else
    match store req.tokenHeader with
    | some userInfo => .next (some userInfo)
    | none => .abortJson .notAuthorized "Not Authorized"

/-- `utils.Containuser(GetUsers(), token)`.  Modelled from the spec: the
`utils` package is not among the extracted sources; the spec says login
"validates `presentedToken` against a configured allow-list of known
identities (exact string match)". -/
def containuser (users : List String) (token : String) : Bool :=
  users.contains token

/-- `types.ErrorMsg`, the generic failure message paired with `types.Failed`
on a body-decoding fault.  Its exact text is not among the extracted sources
and no claim depends on it. -/
def errorMsg : String := "ERROR"

/-- `LoginHandle` (server.go, lines 245–269) as a pure function.  Inputs: the
allow-list, the current registry and cookie store, the client IP, the decoded
request body (`none` models a JSON decoding failure) and the fresh random
session id (`utils.RandString(42)`).  Output: the JSON response and the new
registry and cookie store.

The source: a decode error answers `types.Failed` with `types.ErrorMsg`; a
token not contained in the user list answers `types.Failed` with
`"Invalid user"`; otherwise the token is stored in the cookie session under
the fresh id, the registry records `{ClientIP, Username, SessionId}` under the
fresh id, and the response is `types.Success` carrying the id. -/
def loginHandle (users : List String) (reg : Registry) (store : CookieStore)
    (clientIP : String) (body : Option String) (newSessionId : String) :
    BizVo × Registry × CookieStore :=
  match body with
  | none => ({ code := .failed, message := errorMsg }, reg, store)
  | some token =>
    if containuser users token = false then
      ({ code := .failed, message := "Invalid user" }, reg, store)
    else
      ({ code := .success, data := some newSessionId },
        reg.insert newSessionId
          { clientIP := clientIP, username := token, sessionId := newSessionId },
        store.insert newSessionId token)

/-! ## Credential throttle

`Server.ApiKeyAccessStat` declares per-credential usage tracking ("记录每个
API Key 的最后访问之间，保持在 15/min 之内" — keep each API key within
15/min), but the code enforcing it is not among the extracted sources.  The
throttle below is therefore modelled from the spec. -/

/-- Modelled from the spec: the CredentialThrottle state.  The enforcement
code behind `Server.ApiKeyAccessStat` is not in the extracted sources; the
spec specifies per-credential usage timestamps and leaves the counting
strategy open ("fixed window vs. sliding log is an implementation choice"),
so we keep, per credential id, the sliding log of acquisition timestamps in
epoch milliseconds, most recent first. -/
def Throttle : Type := String → List Int

/-- The throttle state at process start: no credential has been used. -/
def Throttle.empty : Throttle := fun _ => []

/-- Modelled from the spec: the check-then-record step of
`TryAcquire(credentialId, nowMillis, windowMillis, maxPerWindow)` on the log
of one credential.  Acquisitions older than the trailing window are dropped;
if `maxPerWindow` live acquisitions remain the call is rejected and the state
is unchanged, otherwise the acquisition is recorded and allowed. -/
def tryAcquire1 (log : List Int) (now windowMillis : Int) (maxPerWindow : Nat) :
    Bool × List Int :=
  let live := log.filter (fun t => now - t < windowMillis)
  if maxPerWindow ≤ live.length then (false, log) else (true, now :: live)

/-- Modelled from the spec:
`TryAcquire(credentialId, nowMillis, windowMillis, maxPerWindow) -> allowed`,
acting on the whole per-credential map.  Each call is atomic with respect to
concurrent callers for the same credential id, as the spec requires. -/
def tryAcquire (th : Throttle) (credentialId : String) (now windowMillis : Int)
    (maxPerWindow : Nat) : Bool × Throttle :=
  let r := tryAcquire1 (th credentialId) now windowMillis maxPerWindow
  (r.1, fun k => if k = credentialId then r.2 else th k)

/-- Run a (serialized) sequence of `tryAcquire1` calls at the given instants
on the log of one credential, returning the instant of each call with its
outcome, and the final log. -/
def run1 (windowMillis : Int) (maxPerWindow : Nat) :
    List Int → List Int → List (Int × Bool) × List Int
  | log, [] => ([], log)
  | log, now :: ts =>
    ((now, (tryAcquire1 log now windowMillis maxPerWindow).1) ::
        (run1 windowMillis maxPerWindow
          (tryAcquire1 log now windowMillis maxPerWindow).2 ts).1,
      (run1 windowMillis maxPerWindow
        (tryAcquire1 log now windowMillis maxPerWindow).2 ts).2)

/-- Run a (serialized) sequence of `tryAcquire` calls for one credential on
the full throttle state. -/
def runCalls (th : Throttle) (credentialId : String) (windowMillis : Int)
    (maxPerWindow : Nat) : List Int → List (Int × Bool) × Throttle
  | [] => ([], th)
  | now :: ts =>
    ((now, (tryAcquire th credentialId now windowMillis maxPerWindow).1) ::
        (runCalls (tryAcquire th credentialId now windowMillis maxPerWindow).2
          credentialId windowMillis maxPerWindow ts).1,
      (runCalls (tryAcquire th credentialId now windowMillis maxPerWindow).2
        credentialId windowMillis maxPerWindow ts).2)

/-- Membership of an instant in the trailing window `(T - W, T]`. -/
def inWin (T W t : Int) : Bool :=
  decide (T - W < t) && decide (t ≤ T)

/-- The number of allowed acquisitions, among the outcomes `res`, whose
instants lie in the trailing window `(T - W, T]`. -/
def succCount (res : List (Int × Bool)) (T W : Int) : Nat :=
  (res.filter (fun p => p.2 && inWin T W p.1)).length

/-- The number of recorded acquisition timestamps of a log lying in the
trailing window `(T - W, T]`. -/
def logCount (log : List Int) (T W : Int) : Nat :=
  (log.filter (inWin T W)).length

/-! ## Realtime channel activation

The chat WebSocket handler (`ChatHandle`) that completes a channel open is
not among the extracted sources; only the comment on `Server.ChatSession`
("每个 Username 只能连接一次" — each user may connect only once) and the
middleware gate are.  The open step is therefore modelled from the spec. -/

/-- Modelled from the spec: the realtime channel-open step.  The handler
completing a channel open is not in the extracted sources; per the spec the
SessionRegistry "enforces one active realtime channel per issued session", so
an open attempt is admitted only when the admission gate lets the request
through and no channel is currently active for that session id, in which case
the session id becomes active. -/
def openChannel (cfg : Config) (reg : Registry) (store : CookieStore)
    (active : String → Bool) (req : Request) : Bool × (String → Bool) :=
  match authorizeMiddleware cfg reg store req with
  | .next _ =>
    if active req.querySessionId then
      (false, active)
    else
      (true, fun k => if k = req.querySessionId then true else active k)
  | _ => (false, active)

/-! ## Helper lemmas -/

theorem goHasPre_trans {s q p : String} (hqp : goHasPre q p = true)
    (hsq : goHasPre s q = true) : goHasPre s p = true := by
  simp only [goHasPre, List.isPrefixOf_iff_prefix] at *
  exact hqp.trans hsq

/-- The gate decision on the realtime chat path, auth enabled: only the
registry lookup of the `sessionId` query parameter and the client IP matter. -/
theorem authorizeMiddleware_chat (cfg : Config) (reg : Registry)
    (store : CookieStore) (req : Request) (hauth : cfg.enableAuth = true)
    (hpath : req.path = "/api/chat") :
    authorizeMiddleware cfg reg store req =
      match reg req.querySessionId with
      | some session =>
          if session.clientIP = req.clientIP then .next none else .abortSilent
      | none => .abortSilent := by
  unfold authorizeMiddleware
  rw [hpath]
  have h1 : ¬(cfg.enableAuth = false ∨ ("/api/chat" : String) = "/api/login" ∨
      ("/api/chat" : String) = "/api/config/chat-roles/get" ∨
      goHasPre "/api/chat" "/api" = false) := by
    rintro (h | h | h | h)
    · rw [hauth] at h; exact absurd h (by decide)
    · exact absurd h (by decide)
    · exact absurd h (by decide)
    · exact absurd h (by decide)
  rw [if_neg h1, if_neg (by decide : ¬(goHasPre "/api/chat" "/api/config" = true)),
    if_pos rfl]

/-- A serialized call sequence on the full throttle state projects to the
same call sequence on the log of that credential, and the final state agrees
on that credential. -/
theorem runCalls_run1 (credentialId : String) (W : Int) (max : Nat) :
    ∀ (ts : List Int) (th : Throttle),
      (runCalls th credentialId W max ts).1 =
        (run1 W max (th credentialId) ts).1 ∧
      (runCalls th credentialId W max ts).2 credentialId =
        (run1 W max (th credentialId) ts).2 := by
  intro ts
  induction ts with
  | nil => intro th; exact ⟨rfl, rfl⟩
  | cons now ts ih =>
    intro th
    have hfst : (tryAcquire th credentialId now W max).1 =
        (tryAcquire1 (th credentialId) now W max).1 := rfl
    have hkey : (tryAcquire th credentialId now W max).2 credentialId =
        (tryAcquire1 (th credentialId) now W max).2 := by
      simp [tryAcquire]
    have h := ih (tryAcquire th credentialId now W max).2
    rw [hkey] at h
    simp only [runCalls, run1]
    rw [hfst, h.1, h.2]
    exact ⟨rfl, rfl⟩

/-- Acquisitions at the very instant of the call all lie inside a positive
trailing window. -/
theorem filter_same_instant (n : Nat) (t W : Int) (hW : 0 < W) :
    (List.replicate n t).filter (fun x => decide (t - x < W)) =
      List.replicate n t := by
  rw [List.filter_replicate, if_pos]
  simp [hW]

/-- From `k` recorded acquisitions at instant `t`, a further `n` calls at the
same instant all succeed while `k + n` stays within the budget, leaving
`k + n` recorded acquisitions. -/
theorem run1_same_instant :
    ∀ (n k : Nat) (t W : Int) (max : Nat), 0 < W → k + n ≤ max →
      run1 W max (List.replicate k t) (List.replicate n t) =
        (List.replicate n (t, true), List.replicate (k + n) t) := by
  intro n
  induction n with
  | zero => intro k t W max hW hle; simp [run1]
  | succ n ih =>
    intro k t W max hW hle
    rw [List.replicate_succ]
    have hacq : tryAcquire1 (List.replicate k t) t W max =
        (true, List.replicate (k + 1) t) := by
      simp only [tryAcquire1]
      rw [filter_same_instant k t W hW, List.length_replicate,
        if_neg (by omega), ← List.replicate_succ]
    simp only [run1]
    rw [hacq]
    rw [ih (k + 1) t W max hW (by omega)]
    have harith : k + 1 + n = k + (n + 1) := by omega
    rw [harith]
    simp [List.replicate_succ]

theorem succCount_cons (p : Int × Bool) (res : List (Int × Bool)) (T W : Int) :
    succCount (p :: res) T W =
      (if p.2 && inWin T W p.1 then 1 else 0) + succCount res T W := by
  simp only [succCount, List.filter_cons]
  split
  · simp [Nat.add_comm]
  · simp

theorem succCount_append (res₁ res₂ : List (Int × Bool)) (T W : Int) :
    succCount (res₁ ++ res₂) T W = succCount res₁ T W + succCount res₂ T W := by
  simp [succCount, List.filter_append]

theorem logCount_cons (x : Int) (log : List Int) (T W : Int) :
    logCount (x :: log) T W =
      (if inWin T W x then 1 else 0) + logCount log T W := by
  simp only [logCount, List.filter_cons]
  split
  · simp [Nat.add_comm]
  · simp

theorem length_filter_le_of_imp {α : Type} {p q : α → Bool} :
    ∀ l : List α, (∀ a ∈ l, p a = true → q a = true) →
      (l.filter p).length ≤ (l.filter q).length := by
  intro l
  induction l with
  | nil => intro; simp
  | cons a l ih =>
    intro h
    simp only [List.filter_cons]
    by_cases hp : p a = true
    · rw [if_pos hp, if_pos (h a (List.mem_cons_self a l) hp)]
      simpa using ih fun x hx hpx => h x (List.mem_cons_of_mem a hx) hpx
    · rw [if_neg hp]
      refine le_trans (ih fun x hx hpx => h x (List.mem_cons_of_mem a hx) hpx) ?_
      split
      · exact Nat.le_succ _
      · exact le_refl _

theorem exists_last_filter {α : Type} (p : α → Bool) :
    ∀ l : List α, l.filter p ≠ [] →
      ∃ xs a ys, l = xs ++ a :: ys ∧ p a = true ∧ ys.filter p = [] := by
  intro l
  induction l with
  | nil => intro h; exact absurd rfl h
  | cons b l ih =>
    intro h
    by_cases hl : l.filter p = []
    · have hpb : p b = true := by
        by_contra hpb
        exact h (by rw [List.filter_cons, if_neg hpb]; exact hl)
      exact ⟨[], b, l, rfl, hpb, hl⟩
    · obtain ⟨xs, a, ys, hsp, hpa, hys⟩ := ih hl
      exact ⟨b :: xs, a, ys, by rw [hsp]; rfl, hpa, hys⟩

/-- The outcomes of a serialized call sequence carry the call instants in
order. -/
theorem run1_map_fst (W : Int) (max : Nat) :
    ∀ (ts log : List Int), (run1 W max log ts).1.map Prod.fst = ts := by
  intro ts
  induction ts with
  | nil => intro log; rfl
  | cons now ts ih =>
    intro log
    simp only [run1, List.map_cons]
    rw [ih]

/-- Key invariant of the sliding-log throttle: along a time-ordered call
sequence, at every allowed acquisition (at instant `tS`) the number of
earlier allowed acquisitions of the run lying in the trailing window
`(tS - W, tS]`, plus the number of initial-log entries in that window, is
strictly below the budget. -/
theorem run1_success_window_bound (W : Int) (max : Nat) :
    ∀ (ts log : List Int) (xs : List (Int × Bool)) (tS : Int)
      (ys : List (Int × Bool)),
      List.Sorted (· ≤ ·) ts →
      (run1 W max log ts).1 = xs ++ (tS, true) :: ys →
      succCount xs tS W + logCount log tS W < max := by
  intro ts
  induction ts with
  | nil =>
    intro log xs tS ys hs heq
    simp [run1] at heq
  | cons now ts ih =>
    intro log xs tS ys hs heq
    rw [List.sorted_cons] at hs
    simp only [run1] at heq
    cases xs with
    | nil =>
      simp only [List.nil_append] at heq
      injection heq with h1 h2
      have hnow : now = tS := congrArg Prod.fst h1
      have hsucc : (tryAcquire1 log now W max).1 = true := congrArg Prod.snd h1
      by_cases hle : max ≤ (log.filter (fun x => decide (now - x < W))).length
      · exfalso
        have : (tryAcquire1 log now W max).1 = false := by
          simp only [tryAcquire1]
          rw [if_pos hle]
        rw [this] at hsucc
        exact absurd hsucc (by decide)
      · push_neg at hle
        have hmono : logCount log tS W ≤
            (log.filter (fun x => decide (now - x < W))).length := by
          apply length_filter_le_of_imp
          intro a ha hpa
          simp only [inWin, Bool.and_eq_true, decide_eq_true_eq] at hpa ⊢
          omega
        have h0 : succCount [] tS W = 0 := rfl
        omega
    | cons x xs =>
      injection heq with h1 h2
      have htSmem : tS ∈ ts := by
        have hmap := run1_map_fst W max ts (tryAcquire1 log now W max).2
        rw [h2] at hmap
        rw [← hmap]
        exact List.mem_map_of_mem Prod.fst
          (List.mem_append_right xs (List.mem_cons_self (tS, true) ys))
      have hnowtS : now ≤ tS := hs.1 tS htSmem
      have IH := ih (tryAcquire1 log now W max).2 xs tS ys hs.2 h2
      by_cases hle : max ≤ (log.filter (fun x => decide (now - x < W))).length
      · have hb : tryAcquire1 log now W max = (false, log) := by
          simp only [tryAcquire1]
          rw [if_pos hle]
        have hb1 : (tryAcquire1 log now W max).1 = false := congrArg Prod.fst hb
        have hb2 : (tryAcquire1 log now W max).2 = log := congrArg Prod.snd hb
        rw [hb2] at IH
        have hx : x = (now, false) := by rw [← h1, hb1]
        rw [hx, succCount_cons]
        simpa using IH
      · push_neg at hle
        have hb : tryAcquire1 log now W max =
            (true, now :: log.filter (fun x => decide (now - x < W))) := by
          simp only [tryAcquire1]
          rw [if_neg (by omega)]
        have hb1 : (tryAcquire1 log now W max).1 = true := congrArg Prod.fst hb
        have hb2 : (tryAcquire1 log now W max).2 =
            now :: log.filter (fun x => decide (now - x < W)) :=
          congrArg Prod.snd hb
        rw [hb2, logCount_cons] at IH
        have hmono : logCount log tS W ≤
            logCount (log.filter (fun x => decide (now - x < W))) tS W := by
          unfold logCount
          rw [List.filter_filter]
          apply length_filter_le_of_imp
          intro a ha hpa
          simp only [inWin, Bool.and_eq_true, decide_eq_true_eq] at hpa ⊢
          omega
        have hx : x = (now, true) := by rw [← h1, hb1]
        rw [hx, succCount_cons]
        simp only [Bool.true_and]
        by_cases hwin : inWin tS W now = true
        · rw [if_pos hwin]
          rw [if_pos hwin] at IH
          omega
        · rw [if_neg hwin]
          rw [if_neg hwin] at IH
          omega

/-- Trailing-window bound for a serialized call sequence from the empty log:
at most `max` calls are allowed within any trailing window `(T - W, T]`. -/
theorem run1_trailing_window_bound (W : Int) (max : Nat) (ts : List Int)
    (T : Int) (hs : List.Sorted (· ≤ ·) ts) :
    succCount (run1 W max [] ts).1 T W ≤ max := by
  by_cases h0 : (run1 W max [] ts).1.filter (fun p => p.2 && inWin T W p.1) = []
  · simp [succCount, h0]
  · obtain ⟨xs, a, ys, hsp, hpa, hys⟩ := exists_last_filter _ _ h0
    obtain ⟨tS, b⟩ := a
    simp only [Bool.and_eq_true] at hpa
    have hb : b = true := hpa.1
    subst hb
    have hA := run1_success_window_bound W max ts [] xs tS ys hs hsp
    have hlog0 : logCount [] tS W = 0 := rfl
    have hmap := run1_map_fst W max ts []
    rw [hsp] at hmap
    have hsres : List.Sorted (· ≤ ·)
        ((xs ++ (tS, true) :: ys).map Prod.fst) := by
      rw [hmap]; exact hs
    rw [List.map_append, List.map_cons] at hsres
    have hcross := (List.pairwise_append.mp hsres).2.2
    have hxsle : succCount xs T W ≤ succCount xs tS W := by
      unfold succCount
      apply length_filter_le_of_imp
      intro p hp hpT
      have hple : p.1 ≤ tS :=
        hcross p.1 (List.mem_map_of_mem Prod.fst hp)
          tS (List.mem_cons_self tS (ys.map Prod.fst))
      simp only [inWin, Bool.and_eq_true, decide_eq_true_eq] at hpT ⊢
      have hTle : tS ≤ T := by
        have := hpa.2
        simp only [inWin, Bool.and_eq_true, decide_eq_true_eq] at this
        omega
      refine ⟨hpT.1, ?_, ?_⟩ <;> omega
    have hys0 : succCount ys T W = 0 := by
      simp [succCount, hys]
    rw [hlog0] at hA
    rw [hsp, succCount_append, succCount_cons]
    simp only [Bool.true_and, hpa.2, eq_self_iff_true, if_true, hys0]
    omega

/-! ## Claim theorems -/

/-- C10: every request whose URL path does not begin with `/api` is passed
through by the admission gate with no session, secret or identity check —
the decision is `next` with nothing attached, for every configuration
(including `EnableAuth = true`), registry, cookie store and headers. -/
theorem nonApiPathBypassesGate (cfg : Config) (reg : Registry)
    (store : CookieStore) (req : Request)
    (h : goHasPre req.path "/api" = false) :
    authorizeMiddleware cfg reg store req = .next none := by
  unfold authorizeMiddleware
  rw [if_pos (Or.inr (Or.inr (Or.inr h)))]

theorem nonApiPathBypassesGate_witness :
    goHasPre "/chat/index.html" "/api" = false ∧
    authorizeMiddleware { enableAuth := true, accessKey := "secret" }
      Registry.empty CookieStore.empty
      { path := "/chat/index.html", accessKeyHeader := "", tokenHeader := "",
        querySessionId := "", clientIP := "9.9.9.9" } = .next none :=
  ⟨by decide,
    nonApiPathBypassesGate _ _ _ _ (by decide)⟩

/-- C8: the login endpoint `/api/login` is allowed by the gate with no
session header at all (for every registry, store and header contents), and
when `EnableAuth` is false every request is allowed without any session or
secret check. -/
theorem loginPathAndDisabledAuthAllowed :
    (∀ (cfg : Config) (reg : Registry) (store : CookieStore) (req : Request),
      req.path = "/api/login" →
      authorizeMiddleware cfg reg store req = .next none) ∧
    (∀ (cfg : Config) (reg : Registry) (store : CookieStore) (req : Request),
      cfg.enableAuth = false →
      authorizeMiddleware cfg reg store req = .next none) := by
  constructor
  · intro cfg reg store req h
    unfold authorizeMiddleware
    rw [if_pos (Or.inr (Or.inl h))]
  · intro cfg reg store req h
    unfold authorizeMiddleware
    rw [if_pos (Or.inl h)]

theorem loginPathAndDisabledAuthAllowed_witness :
    authorizeMiddleware { enableAuth := true, accessKey := "secret" }
      Registry.empty CookieStore.empty
      { path := "/api/login", accessKeyHeader := "", tokenHeader := "",
        querySessionId := "", clientIP := "1.2.3.4" } = .next none ∧
    authorizeMiddleware { enableAuth := false, accessKey := "secret" }
      Registry.empty CookieStore.empty
      { path := "/api/chat/history", accessKeyHeader := "", tokenHeader := "",
        querySessionId := "", clientIP := "1.2.3.4" } = .next none :=
  ⟨loginPathAndDisabledAuthAllowed.1 _ _ _ _ rfl,
    loginPathAndDisabledAuthAllowed.2 _ _ _ _ rfl⟩

/-- C2: with auth enabled, a request to a path under `/api/config` other than
the public `/api/config/chat-roles/get` is allowed exactly when the
`ACCESS_KEY` header equals the configured key — independently of the session
registry and cookie store — and otherwise aborted with a `NotAuthorized`
body, even if a valid session header is present. -/
theorem adminPathRequiresAccessKey (cfg : Config) (reg : Registry)
    (store : CookieStore) (req : Request)
    (hauth : cfg.enableAuth = true)
    (hcfgp : goHasPre req.path "/api/config" = true)
    (hroles : req.path ≠ "/api/config/chat-roles/get") :
    (req.accessKeyHeader = cfg.accessKey →
      authorizeMiddleware cfg reg store req = .next none) ∧
    (req.accessKeyHeader ≠ cfg.accessKey →
      authorizeMiddleware cfg reg store req =
        .abortJson .notAuthorized "No Permissions") := by
  have hapi : goHasPre req.path "/api" = true :=
    goHasPre_trans (by decide : goHasPre "/api/config" "/api" = true) hcfgp
  have hlogin : req.path ≠ "/api/login" := by
    intro h
    rw [h] at hcfgp
    exact absurd hcfgp (by decide)
  have h1 : ¬(cfg.enableAuth = false ∨ req.path = "/api/login" ∨
      req.path = "/api/config/chat-roles/get" ∨
      goHasPre req.path "/api" = false) := by
    rintro (h | h | h | h)
    · rw [hauth] at h; exact absurd h (by decide)
    · exact hlogin h
    · exact hroles h
    · rw [hapi] at h; exact absurd h (by decide)
  constructor
  · intro hkey
    unfold authorizeMiddleware
    rw [if_neg h1, if_pos hcfgp, if_neg (fun hne => hne hkey)]
  · intro hkey
    unfold authorizeMiddleware
    rw [if_neg h1, if_pos hcfgp, if_pos hkey]

theorem adminPathRequiresAccessKey_witness :
    ({ enableAuth := true, accessKey := "secret" } : Config).enableAuth = true ∧
    goHasPre "/api/config/user/add" "/api/config" = true ∧
    ("/api/config/user/add" : String) ≠ "/api/config/chat-roles/get" ∧
    (("secret" : String) = "secret" →
      authorizeMiddleware { enableAuth := true, accessKey := "secret" }
        Registry.empty (CookieStore.empty.insert "tok" "alice")
        { path := "/api/config/user/add", accessKeyHeader := "secret",
          tokenHeader := "tok", querySessionId := "", clientIP := "1.2.3.4" } =
        .next none) ∧
    (("wrong" : String) ≠ "secret" →
      authorizeMiddleware { enableAuth := true, accessKey := "secret" }
        Registry.empty (CookieStore.empty.insert "tok" "alice")
        { path := "/api/config/user/add", accessKeyHeader := "wrong",
          tokenHeader := "tok", querySessionId := "", clientIP := "1.2.3.4" } =
        .abortJson .notAuthorized "No Permissions") :=
  ⟨rfl, by decide, by decide,
    (adminPathRequiresAccessKey { enableAuth := true, accessKey := "secret" }
      Registry.empty (CookieStore.empty.insert "tok" "alice")
      { path := "/api/config/user/add", accessKeyHeader := "secret",
        tokenHeader := "tok", querySessionId := "", clientIP := "1.2.3.4" }
      rfl (by decide) (by decide)).1,
    (adminPathRequiresAccessKey { enableAuth := true, accessKey := "secret" }
      Registry.empty (CookieStore.empty.insert "tok" "alice")
      { path := "/api/config/user/add", accessKeyHeader := "wrong",
        tokenHeader := "tok", querySessionId := "", clientIP := "1.2.3.4" }
      rfl (by decide) (by decide)).2⟩

/-- C7: with auth enabled, a request to a non-realtime authenticated `/api`
path (under `/api`, not under `/api/config`, not `/api/login` and not
`/api/chat`) is allowed exactly when the session id carried in the
`types.TokenName` header resolves in the tamper-evident cookie store, in
which case the resolved user info is attached to the request context; when
the lookup fails the request is aborted with a `NotAuthorized` body,
short-circuiting all further processing. -/
theorem sessionHeaderGate (cfg : Config) (reg : Registry)
    (store : CookieStore) (req : Request)
    (hauth : cfg.enableAuth = true)
    (hapi : goHasPre req.path "/api" = true)
    (hncfg : goHasPre req.path "/api/config" = false)
    (hlogin : req.path ≠ "/api/login")
    (hchat : req.path ≠ "/api/chat") :
    (∀ u : String, store req.tokenHeader = some u →
      authorizeMiddleware cfg reg store req = .next (some u)) ∧
    (store req.tokenHeader = none →
      authorizeMiddleware cfg reg store req =
        .abortJson .notAuthorized "Not Authorized") := by
  have hroles : req.path ≠ "/api/config/chat-roles/get" := by
    intro h
    rw [h] at hncfg
    exact absurd hncfg (by decide)
  have h1 : ¬(cfg.enableAuth = false ∨ req.path = "/api/login" ∨
      req.path = "/api/config/chat-roles/get" ∨
      goHasPre req.path "/api" = false) := by
    rintro (h | h | h | h)
    · rw [hauth] at h; exact absurd h (by decide)
    · exact hlogin h
    · exact hroles h
    · rw [hapi] at h; exact absurd h (by decide)
  have h2 : ¬(goHasPre req.path "/api/config" = true) := by
    rw [hncfg]; decide
  constructor
  · intro u hu
    unfold authorizeMiddleware
    rw [if_neg h1, if_neg h2, if_neg hchat, hu]
  · intro hu
    unfold authorizeMiddleware
    rw [if_neg h1, if_neg h2, if_neg hchat, hu]

theorem sessionHeaderGate_witness :
    (CookieStore.empty.insert "tok42" "alice") "tok42" = some "alice" ∧
    authorizeMiddleware { enableAuth := true, accessKey := "secret" }
      Registry.empty (CookieStore.empty.insert "tok42" "alice")
      { path := "/api/chat/history", accessKeyHeader := "", tokenHeader := "tok42",
        querySessionId := "", clientIP := "1.2.3.4" } = .next (some "alice") ∧
    authorizeMiddleware { enableAuth := true, accessKey := "secret" }
      Registry.empty (CookieStore.empty.insert "tok42" "alice")
      { path := "/api/chat/history", accessKeyHeader := "", tokenHeader := "other",
        querySessionId := "", clientIP := "1.2.3.4" } =
      .abortJson .notAuthorized "Not Authorized" :=
  ⟨by decide,
    (sessionHeaderGate { enableAuth := true, accessKey := "secret" }
      Registry.empty (CookieStore.empty.insert "tok42" "alice")
      { path := "/api/chat/history", accessKeyHeader := "", tokenHeader := "tok42",
        querySessionId := "", clientIP := "1.2.3.4" }
      rfl (by decide) (by decide) (by decide) (by decide)).1 "alice" (by decide),
    (sessionHeaderGate { enableAuth := true, accessKey := "secret" }
      Registry.empty (CookieStore.empty.insert "tok42" "alice")
      { path := "/api/chat/history", accessKeyHeader := "", tokenHeader := "other",
        querySessionId := "", clientIP := "1.2.3.4" }
      rfl (by decide) (by decide) (by decide) (by decide)).2 (by decide)⟩

/-- C3: a login whose presented token is not contained in the allow-list
returns the failure response `{Failed, "Invalid user"}` and leaves both the
session registry and the cookie store completely unchanged. -/
theorem loginRejectLeavesRegistryUnchanged (users : List String)
    (reg : Registry) (store : CookieStore) (clientIP token newSessionId : String)
    (h : containuser users token = false) :
    loginHandle users reg store clientIP (some token) newSessionId =
      ({ code := .failed, message := "Invalid user" }, reg, store) := by
  simp only [loginHandle]
  rw [if_pos h]

theorem loginRejectLeavesRegistryUnchanged_witness :
    containuser ["alice", "bob"] "mallory" = false ∧
    loginHandle ["alice", "bob"] Registry.empty CookieStore.empty
      "1.2.3.4" (some "mallory") "S1" =
      ({ code := .failed, message := "Invalid user" },
        Registry.empty, CookieStore.empty) :=
  ⟨by decide,
    loginRejectLeavesRegistryUnchanged ["alice", "bob"] Registry.empty
      CookieStore.empty "1.2.3.4" "mallory" "S1" (by decide)⟩

/-- C4 counterexample: a login with a token absent from the allow-list is
answered with the generic fault code `types.Failed` — the very same code the
handler uses for a malformed request body — and not with the
`types.NotAuthorized` code of the authentication-failure taxonomy.  The
claim that the rejected login is never surfaced as a generic fault code is
therefore false at this input. -/
theorem loginRejectGenericCode_cex :
    (loginHandle ["alice"] Registry.empty CookieStore.empty
      "1.2.3.4" (some "mallory") "S1").1.code = BizCode.failed ∧
    (loginHandle ["alice"] Registry.empty CookieStore.empty
      "1.2.3.4" none "S1").1.code = BizCode.failed ∧
    BizCode.failed ≠ BizCode.notAuthorized := by
  decide

/-- C4 (amended): a login with a token absent from the allow-list is
answered with the generic code `Failed` and the message `"Invalid user"` —
the same code used for a generic fault such as a malformed body,
distinguished from it only by the message string — and is not classified
under the `NotAuthorized` code. -/
theorem loginRejectFailedCode (users : List String) (reg : Registry)
    (store : CookieStore) (clientIP token newSessionId : String)
    (h : containuser users token = false) :
    (loginHandle users reg store clientIP (some token) newSessionId).1 =
      { code := .failed, message := "Invalid user" } ∧
    (loginHandle users reg store clientIP (some token) newSessionId).1.code ≠
      BizCode.notAuthorized ∧
    (loginHandle users reg store clientIP (some token) newSessionId).1.code =
      (loginHandle users reg store clientIP none newSessionId).1.code := by
  simp only [loginHandle]
  rw [if_pos h]
  exact ⟨rfl, fun hcontra => BizCode.noConfusion hcontra, rfl⟩

theorem loginRejectFailedCode_witness :
    containuser ["alice"] "mallory" = false ∧
    ((loginHandle ["alice"] Registry.empty CookieStore.empty
        "1.2.3.4" (some "mallory") "S1").1 =
      { code := .failed, message := "Invalid user" } ∧
    (loginHandle ["alice"] Registry.empty CookieStore.empty
        "1.2.3.4" (some "mallory") "S1").1.code ≠ BizCode.notAuthorized ∧
    (loginHandle ["alice"] Registry.empty CookieStore.empty
        "1.2.3.4" (some "mallory") "S1").1.code =
      (loginHandle ["alice"] Registry.empty CookieStore.empty
        "1.2.3.4" none "S1").1.code) :=
  ⟨by decide,
    loginRejectFailedCode ["alice"] Registry.empty CookieStore.empty
      "1.2.3.4" "mallory" "S1" (by decide)⟩

/-- C1: after a successful login from client address `clientIP` registered
the fresh session id, a realtime-channel request to `/api/chat` carrying that
session id in the query parameters is allowed when it comes from `clientIP`,
aborted with no response body when it comes from any other address, and
aborted with no response body for any session id absent from the registry. -/
theorem sessionBindingRealtime (cfg : Config) (users : List String)
    (reg : Registry) (store cstore : CookieStore)
    (clientIP token newSessionId : String) (reg' : Registry)
    (hauth : cfg.enableAuth = true)
    (huser : containuser users token = true)
    (hreg : reg' =
      (loginHandle users reg store clientIP (some token) newSessionId).2.1) :
    (∀ req : Request, req.path = "/api/chat" →
      req.querySessionId = newSessionId → req.clientIP = clientIP →
      authorizeMiddleware cfg reg' cstore req = .next none) ∧
    (∀ req : Request, req.path = "/api/chat" →
      req.querySessionId = newSessionId → req.clientIP ≠ clientIP →
      authorizeMiddleware cfg reg' cstore req = .abortSilent) ∧
    (∀ req : Request, req.path = "/api/chat" →
      reg' req.querySessionId = none →
      authorizeMiddleware cfg reg' cstore req = .abortSilent) := by
  have hreg' : reg' = reg.insert newSessionId
      { clientIP := clientIP, username := token, sessionId := newSessionId } := by
    rw [hreg]
    simp only [loginHandle]
    rw [if_neg (by rw [huser]; decide)]
  refine ⟨?_, ?_, ?_⟩
  · intro req hpath hsid hip
    rw [authorizeMiddleware_chat cfg reg' cstore req hauth hpath, hsid, hreg']
    simp [Registry.insert, hip]
  · intro req hpath hsid hip
    rw [authorizeMiddleware_chat cfg reg' cstore req hauth hpath, hsid, hreg']
    simp [Registry.insert, Ne.symm hip]
  · intro req hpath hnone
    rw [authorizeMiddleware_chat cfg reg' cstore req hauth hpath, hnone]

theorem sessionBindingRealtime_witness :
    containuser ["alice"] "alice" = true ∧
    authorizeMiddleware { enableAuth := true, accessKey := "secret" }
      (loginHandle ["alice"] Registry.empty CookieStore.empty
        "1.2.3.4" (some "alice") "S1").2.1 CookieStore.empty
      { path := "/api/chat", accessKeyHeader := "", tokenHeader := "",
        querySessionId := "S1", clientIP := "1.2.3.4" } = .next none ∧
    authorizeMiddleware { enableAuth := true, accessKey := "secret" }
      (loginHandle ["alice"] Registry.empty CookieStore.empty
        "1.2.3.4" (some "alice") "S1").2.1 CookieStore.empty
      { path := "/api/chat", accessKeyHeader := "", tokenHeader := "",
        querySessionId := "S1", clientIP := "5.6.7.8" } = .abortSilent ∧
    authorizeMiddleware { enableAuth := true, accessKey := "secret" }
      (loginHandle ["alice"] Registry.empty CookieStore.empty
        "1.2.3.4" (some "alice") "S1").2.1 CookieStore.empty
      { path := "/api/chat", accessKeyHeader := "", tokenHeader := "",
        querySessionId := "S2", clientIP := "1.2.3.4" } = .abortSilent :=
  ⟨by decide,
    (sessionBindingRealtime { enableAuth := true, accessKey := "secret" }
      ["alice"] Registry.empty CookieStore.empty CookieStore.empty
      "1.2.3.4" "alice" "S1" _ rfl (by decide) rfl).1
      { path := "/api/chat", accessKeyHeader := "", tokenHeader := "",
        querySessionId := "S1", clientIP := "1.2.3.4" } rfl rfl rfl,
    (sessionBindingRealtime { enableAuth := true, accessKey := "secret" }
      ["alice"] Registry.empty CookieStore.empty CookieStore.empty
      "1.2.3.4" "alice" "S1" _ rfl (by decide) rfl).2.1
      { path := "/api/chat", accessKeyHeader := "", tokenHeader := "",
        querySessionId := "S1", clientIP := "5.6.7.8" } rfl rfl (by decide),
    (sessionBindingRealtime { enableAuth := true, accessKey := "secret" }
      ["alice"] Registry.empty CookieStore.empty CookieStore.empty
      "1.2.3.4" "alice" "S1" _ rfl (by decide) rfl).2.2
      { path := "/api/chat", accessKeyHeader := "", tokenHeader := "",
        querySessionId := "S2", clientIP := "1.2.3.4" } rfl (by decide)⟩

/-- C6: while a realtime channel is active for a session id, a second
channel-open attempt carrying the same session id is not admitted — even
when it comes from the bound address and the gate itself would let the
request through — and the set of active channels is unchanged. -/
theorem singleActiveChannelPerSession (cfg : Config) (reg : Registry)
    (store : CookieStore) (active : String → Bool) (req : Request)
    (hactive : active req.querySessionId = true) :
    (openChannel cfg reg store active req).1 = false ∧
    (openChannel cfg reg store active req).2 = active := by
  unfold openChannel
  cases authorizeMiddleware cfg reg store req with
  | next u =>
    rw [if_pos hactive]
    exact ⟨rfl, rfl⟩
  | abortJson c m => exact ⟨rfl, rfl⟩
  | abortSilent => exact ⟨rfl, rfl⟩

theorem singleActiveChannelPerSession_witness :
    (fun k : String => k == "S1") "S1" = true ∧
    (openChannel { enableAuth := true, accessKey := "secret" }
      (Registry.empty.insert "S1"
        { clientIP := "1.2.3.4", username := "alice", sessionId := "S1" })
      CookieStore.empty (fun k : String => k == "S1")
      { path := "/api/chat", accessKeyHeader := "", tokenHeader := "",
        querySessionId := "S1", clientIP := "1.2.3.4" }).1 = false :=
  ⟨by decide,
    (singleActiveChannelPerSession { enableAuth := true, accessKey := "secret" }
      (Registry.empty.insert "S1"
        { clientIP := "1.2.3.4", username := "alice", sessionId := "S1" })
      CookieStore.empty (fun k : String => k == "S1")
      { path := "/api/chat", accessKeyHeader := "", tokenHeader := "",
        querySessionId := "S1", clientIP := "1.2.3.4" } (by decide)).1⟩

/-- C5: for every credential, with `maxPerWindow = 15` and
`windowMillis = 60000`, fifteen consecutive `TryAcquire` calls at the same
instant on a fresh throttle all succeed, the sixteenth call at that instant
fails, and after time advances past the window a subsequent call for that
credential succeeds again. -/
theorem throttleSameInstantWindow (credentialId : String) (t tLater : Int)
    (h : t + 60000 < tLater) :
    (runCalls Throttle.empty credentialId 60000 15 (List.replicate 15 t)).1 =
      List.replicate 15 (t, true) ∧
    (tryAcquire (runCalls Throttle.empty credentialId 60000 15
        (List.replicate 15 t)).2 credentialId t 60000 15).1 = false ∧
    (tryAcquire ((tryAcquire (runCalls Throttle.empty credentialId 60000 15
        (List.replicate 15 t)).2 credentialId t 60000 15).2)
        credentialId tLater 60000 15).1 = true := by
  have hbridge := runCalls_run1 credentialId 60000 15 (List.replicate 15 t)
    Throttle.empty
  have hempty : Throttle.empty credentialId = [] := rfl
  rw [hempty] at hbridge
  have hrun := run1_same_instant 15 0 t 60000 15 (by omega) (by omega)
  rw [List.replicate_zero, Nat.zero_add] at hrun
  have hlog15 : (runCalls Throttle.empty credentialId 60000 15
      (List.replicate 15 t)).2 credentialId = List.replicate 15 t := by
    rw [hbridge.2, hrun]
  have hacq16 : tryAcquire1 (List.replicate 15 t) t 60000 15 =
      (false, List.replicate 15 t) := by
    simp only [tryAcquire1]
    rw [filter_same_instant 15 t 60000 (by omega), List.length_replicate,
      if_pos (by omega)]
  have hfil0 : (List.replicate 15 t).filter
      (fun x => decide (tLater - x < 60000)) = [] := by
    rw [List.filter_replicate, if_neg]
    simp only [decide_eq_true_eq]
    omega
  have hacq17 : tryAcquire1 (List.replicate 15 t) tLater 60000 15 =
      (true, [tLater]) := by
    simp only [tryAcquire1]
    rw [hfil0]
    simp
  have h16fst : (tryAcquire (runCalls Throttle.empty credentialId 60000 15
      (List.replicate 15 t)).2 credentialId t 60000 15).1 = false := by
    show (tryAcquire1 ((runCalls Throttle.empty credentialId 60000 15
      (List.replicate 15 t)).2 credentialId) t 60000 15).1 = false
    rw [hlog15, hacq16]
  have h16log : (tryAcquire (runCalls Throttle.empty credentialId 60000 15
      (List.replicate 15 t)).2 credentialId t 60000 15).2 credentialId =
      List.replicate 15 t := by
    simp only [tryAcquire]
    rw [if_pos trivial, hlog15, hacq16]
  refine ⟨by rw [hbridge.1, hrun], h16fst, ?_⟩
  show (tryAcquire1 ((tryAcquire (runCalls Throttle.empty credentialId 60000 15
      (List.replicate 15 t)).2 credentialId t 60000 15).2 credentialId)
      tLater 60000 15).1 = true
  rw [h16log, hacq17]

theorem throttleSameInstantWindow_witness :
    ((0 : Int) + 60000 < 60001) ∧
    ((runCalls Throttle.empty "sk-key-1" 60000 15 (List.replicate 15 0)).1 =
      List.replicate 15 ((0 : Int), true) ∧
    (tryAcquire (runCalls Throttle.empty "sk-key-1" 60000 15
        (List.replicate 15 0)).2 "sk-key-1" 0 60000 15).1 = false ∧
    (tryAcquire ((tryAcquire (runCalls Throttle.empty "sk-key-1" 60000 15
        (List.replicate 15 0)).2 "sk-key-1" 0 60000 15).2)
        "sk-key-1" 60001 60000 15).1 = true) :=
  ⟨by omega, throttleSameInstantWindow "sk-key-1" 0 60001 (by omega)⟩

/-- C9: an interleaving of concurrent `TryAcquire` calls for one credential
is, by the atomicity of the check-then-record step, a serialized
(time-ordered) sequence of calls; for every such sequence, every trailing
window of length `windowMillis` and every budget, no more than
`maxPerWindow` calls are allowed inside the window. -/
theorem throttleConcurrentWindowBound (credentialId : String) (W : Int)
    (max : Nat) (ts : List Int) (T : Int)
    (hs : List.Sorted (· ≤ ·) ts) :
    succCount (runCalls Throttle.empty credentialId W max ts).1 T W ≤ max := by
  rw [(runCalls_run1 credentialId W max ts Throttle.empty).1]
  exact run1_trailing_window_bound W max ts T hs

theorem throttleConcurrentWindowBound_witness :
    List.Sorted (· ≤ ·) [(0 : Int), 0, 10, 20, 30] ∧
    succCount (runCalls Throttle.empty "sk-key-1" 60000 2
      [(0 : Int), 0, 10, 20, 30]).1 40 60000 ≤ 2 :=
  ⟨by decide,
    throttleConcurrentWindowBound "sk-key-1" 60000 2 [0, 0, 10, 20, 30] 40
      (by decide)⟩

end ChatGPTPlus
